import Mathlib

/-!
Shallow embedding of `direct-executor` (src/src/lib.rs), a minimal no-std
executor that drives one future to completion on the current thread.

Modelling conventions:

* Side effects of the caller-supplied closures (`wait`, the `wake` callback)
  and of the future's `poll` are represented by threading an explicit external
  world of type `ω`; a zero-argument Rust closure `impl FnMut()` / `impl Fn()`
  becomes a state transformer `ω → ω`.
* A Rust future `F : Future` becomes a state machine: a state type `σ` plus a
  `poll` function taking the current state, the `task::Context` for the
  attempt, and the current world, returning `task::Poll` of the output
  together with the successor state and world.
* The raw pointer `*const F` held as the waker's data pointer becomes
  `Option (ω → ω)`: `none` models the null pointer, `some f` a valid pointer
  to the live callback `f`.  `Option::unwrap` on the result of `as_ref`
  becomes the `Option`-valued functions below, `none` standing for the panic
  of `unwrap` on null.
* The `loop` in `run_with_wake` has no bound in the source; it is embedded
  with an explicit fuel counting poll attempts.  A result `none` means the
  loop has not exited within that many poll attempts; `some` is the value the
  Rust code returns, paired with the final world.
* `core::sync::atomic::spin_loop_hint()` is a CPU pause hint with no effect
  on program-observable state; it is embedded as the identity on the world.
-/

namespace DirectExecutor

/-- `core::task::Poll`: result of one poll attempt. -/
inductive Poll (α : Type) where
  | ready (value : α)
  | pending
  deriving DecidableEq, Repr

/-- The source installs exactly one static `RawWakerVTable` (the literal in
`create_raw_waker`); a vtable pointer is therefore a reference to that single
static table, modelled by a single-constructor type.  The entries of the
table are the top-level functions `vtable_clone`, `vtable_wake`,
`vtable_wake_by_ref`, `vtable_drop` below. -/
inductive VTableRef where
  | theStatic
  deriving DecidableEq, Repr

/-- `core::task::RawWaker` as built by `create_raw_waker`: a data pointer (the
`*const F` callback pointer, `none` = null) plus the vtable reference. -/
structure RawWaker (ω : Type) where
  data : Option (ω → ω)
  vtable : VTableRef

/-- `create_raw_waker(wake: *const F)`: `RawWaker::new(wake as *const (), &VTABLE)`. -/
def create_raw_waker (wake : Option (ω → ω)) : RawWaker ω :=
  { data := wake, vtable := VTableRef.theStatic }

/-- Vtable clone entry: `|wake_ptr| create_raw_waker(wake_ptr as *const F)` —
rebuilds a raw waker from the same data pointer (and the same static vtable). -/
def vtable_clone (wake_ptr : Option (ω → ω)) : RawWaker ω :=
  create_raw_waker wake_ptr

/-- Vtable wake entry: `let wake = (wake_ptr as *const F).as_ref().unwrap(); wake();`.
`none` models the panic of `unwrap` when the data pointer is null; otherwise the
callback is applied to the world exactly once. -/
def vtable_wake (wake_ptr : Option (ω → ω)) (w : ω) : Option ω :=
  match wake_ptr with
  | none => none
  | some wake => some (wake w)

/-- Vtable wake-by-ref entry: textually identical body to the wake entry. -/
def vtable_wake_by_ref (wake_ptr : Option (ω → ω)) (w : ω) : Option ω :=
  match wake_ptr with
  | none => none
  | some wake => some (wake w)

/-- Vtable drop entry: `|_| {}` — releases nothing. -/
def vtable_drop (_wake_ptr : Option (ω → ω)) : Unit := ()

/-- `core::task::Waker`, obtained via `Waker::from_raw`. -/
structure Waker (ω : Type) where
  raw : RawWaker ω

/-- `task::Waker::from_raw(raw_waker)`. -/
def Waker.from_raw (rw : RawWaker ω) : Waker ω :=
  { raw := rw }

/-- `Waker::wake` (consuming): dispatches to the vtable wake entry.  The vtable's
wake entry neither drops nor releases anything. -/
def Waker.wake (wk : Waker ω) (w : ω) : Option ω :=
  vtable_wake wk.raw.data w

/-- `Waker::wake_by_ref`: dispatches to the vtable wake-by-ref entry. -/
def Waker.wake_by_ref (wk : Waker ω) (w : ω) : Option ω :=
  vtable_wake_by_ref wk.raw.data w

/-- `Waker::clone`: dispatches to the vtable clone entry. -/
def Waker.clone (wk : Waker ω) : Waker ω :=
  Waker.from_raw (vtable_clone wk.raw.data)

/-- Discarding a waker handle dispatches to the vtable drop entry. -/
def Waker.drop (wk : Waker ω) : Unit :=
  vtable_drop wk.raw.data

/-- `task::Context::from_waker(&waker)`: an ephemeral wrapper exposing the
waker to one poll attempt. -/
structure Context (ω : Type) where
  waker : Waker ω

/-- A future, shallowly embedded: a state machine over states `σ`, whose one
operation `poll` advances the state and the external world given the context
of the attempt, reporting `ready` with the output or `pending`. -/
structure Future (σ ω α : Type) where
  poll : σ → Context ω → ω → Poll α × σ × ω

/-- The `loop` body of `run_with_wake`, with explicit fuel bounding the number
of poll attempts observed: poll; on `Ready(result)` return it; otherwise call
`wait()` once and repeat.  `none` means the loop did not exit within `fuel`
poll attempts. -/
def poll_loop (f : Future σ ω α) (wait : ω → ω) (cx : Context ω) :
    Nat → σ → ω → Option (α × ω)
  | 0, _, _ => none
  | fuel + 1, s, w =>
    match f.poll s cx w with
    | (Poll.ready result, _, w') => some (result, w')
    | (Poll.pending, s', w') => poll_loop f wait cx fuel s' (wait w')

/-- The context built inside `run_with_wake`: the raw waker is created from
`&wake`, a reference to the live `wake` argument — a non-null pointer,
hence `some wake`. -/
def run_context (wake : ω → ω) : Context ω :=
  { waker := Waker.from_raw (create_raw_waker (some wake)) }

/-- `run_with_wake(future, wait, wake)`: pin the future, build the waker from
`&wake`, build the context, and run the poll loop. -/
def run_with_wake (f : Future σ ω α) (wait : ω → ω) (wake : ω → ω)
    (fuel : Nat) (s : σ) (w : ω) : Option (α × ω) :=
  poll_loop f wait (run_context wake) fuel s w

/-- `run(future, wait)`: `run_with_wake(future, wait, || {})`.  The closure
`|| {}` does nothing, i.e. it is the identity on the world. -/
def run (f : Future σ ω α) (wait : ω → ω) (fuel : Nat) (s : σ) (w : ω) :
    Option (α × ω) :=
  run_with_wake f wait (fun v => v) fuel s w

/-- `core::sync::atomic::spin_loop_hint()`: a CPU relax hint with no effect on
program-observable state. -/
def spin_loop_hint : ω → ω :=
  fun w => w

/-- `run_spinning(future)`: `run(future, || core::sync::atomic::spin_loop_hint())`. -/
def run_spinning (f : Future σ ω α) (fuel : Nat) (s : σ) (w : ω) :
    Option (α × ω) :=
  run f (fun v => spin_loop_hint v) fuel s w

/-- One pending round of the loop, as a function of the loop's mutable state
`(s, w)`: poll once (discarding the poll result) and then apply `wait` to the
world, exactly once.  `(pending_step f cx wait)^[k] (s, w)` is the state and
world presented to the `(k+1)`th poll, provided the first `k` polls were all
`pending`. -/
def pending_step (f : Future σ ω α) (cx : Context ω) (wait : ω → ω)
    (p : σ × ω) : σ × ω :=
  ((f.poll p.1 cx p.2).2.1, wait (f.poll p.1 cx p.2).2.2)

/-- The result of the `(k+1)`th poll of the loop started at `(s, w)`, provided
the first `k` polls were all `pending`. -/
def poll_at (f : Future σ ω α) (cx : Context ω) (wait : ω → ω)
    (s : σ) (w : ω) (k : Nat) : Poll α × σ × ω :=
  f.poll ((pending_step f cx wait)^[k] (s, w)).1 cx
    ((pending_step f cx wait)^[k] (s, w)).2

/-- `n` successive invocations of `Waker::wake` threaded through the world;
`none` records that some invocation hit the null-pointer panic. -/
def iterate_wake (wk : Waker ω) : Nat → ω → Option ω
  | 0, w => some w
  | n + 1, w => (Waker.wake wk w).bind (iterate_wake wk n)

/-- Fallible rendering of the very same loop body of `run_with_wake`, for the
panic semantics: a panic raised inside the future's `poll` (including one
raised by a wake callback that `poll` invokes through the context) or inside
`wait` is modelled as `Except.error` carrying the panic payload `ε`.  The loop
body contains no handler, so the first error unwinds out of the loop directly. -/
def poll_loop_exc (p : σ → Context ω → ω → Except ε (Poll α × σ × ω))
    (wait : ω → Except ε ω) (cx : Context ω) :
    Nat → σ → ω → Except ε (Option (α × ω))
  | 0, _, _ => Except.ok none
  | fuel + 1, s, w =>
    match p s cx w with
    | Except.error e => Except.error e
    | Except.ok (Poll.ready result, _, w') => Except.ok (some (result, w'))
    | Except.ok (Poll.pending, s', w') =>
      match wait w' with
      | Except.error e => Except.error e
      | Except.ok w'' => poll_loop_exc p wait cx fuel s' w''

/-- `run_with_wake` under the panic-aware rendering of the loop. -/
def run_with_wake_exc (p : σ → Context ω → ω → Except ε (Poll α × σ × ω))
    (wait : ω → Except ε ω) (wake : ω → ω) (fuel : Nat) (s : σ) (w : ω) :
    Except ε (Option (α × ω)) :=
  poll_loop_exc p wait (run_context wake) fuel s w

/-- A concrete future for evaluating the embedding: `pending` for its first
`n` polls (counting polls in its state), then `ready v`; it never touches the
world or the context. -/
def countdown_future (n : Nat) (v : Nat) : Future Nat Nat Nat :=
  { poll := fun s _ w => if s < n then (Poll.pending, s + 1, w) else (Poll.ready v, s, w) }

/-- A concrete future that is `pending` on every poll. -/
def pend_future : Future Unit Nat Nat :=
  { poll := fun s _ w => (Poll.pending, s, w) }

/-! ### Helper lemmas about the loop and the waker -/

/-- Every waker handle carries the single static vtable, so the clone vtable
entry rebuilds a handle identical to its source. -/
theorem waker_clone_self (wk : Waker ω) : Waker.clone wk = wk := by
  rcases wk with ⟨⟨d, v⟩⟩
  cases v
  rfl

/-- Shifting the poll index by one past a pending round. -/
theorem poll_at_succ (f : Future σ ω α) (cx : Context ω) (wait : ω → ω)
    (s : σ) (w : ω) (k : Nat) :
    poll_at f cx wait s w (k + 1)
      = poll_at f cx wait (pending_step f cx wait (s, w)).1
          (pending_step f cx wait (s, w)).2 k := by
  simp [poll_at, Function.iterate_succ_apply]

/-- If the first `N` polls along the loop's trajectory are `pending` and the
`(N+1)`th is `ready V`, the loop returns `V` together with the world produced
by that `(N+1)`th poll, for any fuel allowing at least `N+1` polls. -/
theorem poll_loop_ready_of_pending_lt (f : Future σ ω α) (cx : Context ω)
    (wait : ω → ω) :
    ∀ (N : Nat) (s : σ) (w : ω) (V : α),
      (∀ k, k < N → (poll_at f cx wait s w k).1 = Poll.pending) →
      (poll_at f cx wait s w N).1 = Poll.ready V →
      ∀ fuel, N < fuel →
        poll_loop f wait cx fuel s w = some (V, (poll_at f cx wait s w N).2.2) := by
  intro N
  induction N with
  | zero =>
    intro s w V _ hready fuel hfuel
    obtain ⟨fuel, rfl⟩ : ∃ m, fuel = m + 1 := ⟨fuel - 1, by omega⟩
    rcases hr : f.poll s cx w with ⟨pr, s', w'⟩
    have hV : pr = Poll.ready V := by simpa [poll_at, hr] using hready
    subst hV
    simp [poll_loop, hr, poll_at]
  | succ N ih =>
    intro s w V hpend hready fuel hfuel
    obtain ⟨fuel, rfl⟩ : ∃ m, fuel = m + 1 := ⟨fuel - 1, by omega⟩
    rcases hr : f.poll s cx w with ⟨pr, s', w'⟩
    have h0 : pr = Poll.pending := by
      simpa [poll_at, hr] using hpend 0 (Nat.succ_pos N)
    subst h0
    have hstep : pending_step f cx wait (s, w) = (s', wait w') := by
      simp [pending_step, hr]
    have hshift : ∀ k, poll_at f cx wait s' (wait w') k = poll_at f cx wait s w (k + 1) := by
      intro k
      rw [poll_at_succ, hstep]
    have hrec := ih s' (wait w') V
      (fun k hk => by rw [hshift]; exact hpend (k + 1) (by omega))
      (by rw [hshift]; exact hready) fuel (by omega)
    calc poll_loop f wait cx (fuel + 1) s w
        = poll_loop f wait cx fuel s' (wait w') := by simp [poll_loop, hr]
      _ = some (V, (poll_at f cx wait s' (wait w') N).2.2) := hrec
      _ = some (V, (poll_at f cx wait s w (N + 1)).2.2) := by rw [hshift]

/-- If every poll within the fuel bound is `pending`, the loop does not exit. -/
theorem poll_loop_none_of_pending (f : Future σ ω α) (cx : Context ω)
    (wait : ω → ω) :
    ∀ (fuel : Nat) (s : σ) (w : ω),
      (∀ k, k < fuel → (poll_at f cx wait s w k).1 = Poll.pending) →
      poll_loop f wait cx fuel s w = none := by
  intro fuel
  induction fuel with
  | zero => intro s w _; rfl
  | succ fuel ih =>
    intro s w hpend
    rcases hr : f.poll s cx w with ⟨pr, s', w'⟩
    have h0 : pr = Poll.pending := by
      simpa [poll_at, hr] using hpend 0 (Nat.succ_pos fuel)
    subst h0
    have hstep : pending_step f cx wait (s, w) = (s', wait w') := by
      simp [pending_step, hr]
    have hshift : ∀ k, poll_at f cx wait s' (wait w') k = poll_at f cx wait s w (k + 1) := by
      intro k
      rw [poll_at_succ, hstep]
    calc poll_loop f wait cx (fuel + 1) s w
        = poll_loop f wait cx fuel s' (wait w') := by simp [poll_loop, hr]
      _ = none := ih s' (wait w') (fun k hk => by rw [hshift]; exact hpend (k + 1) (by omega))

/-- Whenever the loop exits with a value, some poll along its trajectory
reported `ready` with exactly that value (and produced the returned world),
all earlier polls having been `pending`. -/
theorem poll_loop_some_ready (f : Future σ ω α) (cx : Context ω)
    (wait : ω → ω) :
    ∀ (fuel : Nat) (s : σ) (w : ω) (a : α) (wfin : ω),
      poll_loop f wait cx fuel s w = some (a, wfin) →
      ∃ n, n < fuel
        ∧ (∀ k, k < n → (poll_at f cx wait s w k).1 = Poll.pending)
        ∧ (poll_at f cx wait s w n).1 = Poll.ready a
        ∧ (poll_at f cx wait s w n).2.2 = wfin := by
  intro fuel
  induction fuel with
  | zero => intro s w a wfin h; simp [poll_loop] at h
  | succ fuel ih =>
    intro s w a wfin h
    rcases hr : f.poll s cx w with ⟨pr, s', w'⟩
    cases pr with
    | ready res =>
      have hres : res = a ∧ w' = wfin := by
        have := h
        simp [poll_loop, hr] at this
        exact this
      refine ⟨0, Nat.succ_pos fuel, by omega, ?_, ?_⟩
      · simp [poll_at, hr, hres.1]
      · simp [poll_at, hr, hres.2]
    | pending =>
      have hrec : poll_loop f wait cx fuel s' (wait w') = some (a, wfin) := by
        have := h
        simpa [poll_loop, hr] using this
      have hstep : pending_step f cx wait (s, w) = (s', wait w') := by
        simp [pending_step, hr]
      have hshift : ∀ k, poll_at f cx wait s' (wait w') k = poll_at f cx wait s w (k + 1) := by
        intro k
        rw [poll_at_succ, hstep]
      obtain ⟨n, hn, hpend, hready, hw⟩ := ih s' (wait w') a wfin hrec
      refine ⟨n + 1, by omega, ?_, ?_, ?_⟩
      · intro k hk
        cases k with
        | zero => simp [poll_at, hr]
        | succ k => rw [← hshift]; exact hpend k (by omega)
      · rw [← hshift]; exact hready
      · rw [← hshift]; exact hw

/-! ### Claim theorems -/

/-- **C1**: for a future that completes after exactly `N` unsuccessful polls
(`pending` on each of the first `N` polls along the loop's trajectory, `ready V`
on the `(N+1)`th), each entry point — `run_with_wake`, `run`, `run_spinning` —
returns `V` unchanged from the `(N+1)`th poll whenever the fuel admits it, and
the wait operation is applied exactly once per unsuccessful poll, i.e. exactly
`N` times (each `pending_step` of the trajectory applies `wait` exactly once;
for `N = 0`, a future ready on its first poll, `wait` is never applied). -/
theorem run_returns_after_n_pending_polls :
    (∀ (σ ω α : Type) (f : Future σ ω α) (wait wake : ω → ω) (s : σ) (w : ω)
        (N : Nat) (V : α),
      (∀ k, k < N → (poll_at f (run_context wake) wait s w k).1 = Poll.pending) →
      (poll_at f (run_context wake) wait s w N).1 = Poll.ready V →
      ∀ fuel, N < fuel →
        run_with_wake f wait wake fuel s w
          = some (V, (poll_at f (run_context wake) wait s w N).2.2))
    ∧ (∀ (σ ω α : Type) (f : Future σ ω α) (wait : ω → ω) (s : σ) (w : ω)
        (N : Nat) (V : α),
      (∀ k, k < N → (poll_at f (run_context (fun v => v)) wait s w k).1 = Poll.pending) →
      (poll_at f (run_context (fun v => v)) wait s w N).1 = Poll.ready V →
      ∀ fuel, N < fuel →
        run f wait fuel s w
          = some (V, (poll_at f (run_context (fun v => v)) wait s w N).2.2))
    ∧ (∀ (σ ω α : Type) (f : Future σ ω α) (s : σ) (w : ω) (N : Nat) (V : α),
      (∀ k, k < N →
        (poll_at f (run_context (fun v => v)) (fun v => spin_loop_hint v) s w k).1
          = Poll.pending) →
      (poll_at f (run_context (fun v => v)) (fun v => spin_loop_hint v) s w N).1
        = Poll.ready V →
      ∀ fuel, N < fuel →
        run_spinning f fuel s w
          = some (V,
              (poll_at f (run_context (fun v => v)) (fun v => spin_loop_hint v) s w N).2.2)) :=
  ⟨fun _ _ _ f wait wake s w N V hpend hready fuel hfuel =>
      poll_loop_ready_of_pending_lt f (run_context wake) wait N s w V hpend hready fuel hfuel,
    fun _ _ _ f wait s w N V hpend hready fuel hfuel =>
      poll_loop_ready_of_pending_lt f (run_context (fun v => v)) wait N s w V hpend hready
        fuel hfuel,
    fun _ _ _ f s w N V hpend hready fuel hfuel =>
      poll_loop_ready_of_pending_lt f (run_context (fun v => v)) (fun v => spin_loop_hint v)
        N s w V hpend hready fuel hfuel⟩

/-- Witness for C1: the spec's end-to-end scenario — a future that is pending
twice and then ready with `42`, run with a counting wait operation, returns
`42` with the counter at `2`; and a future ready on its first poll with value
`7` spin-runs to `7` with the counter left untouched at `0`. -/
theorem run_returns_after_n_pending_polls_witness :
    run_with_wake (countdown_future 2 42) Nat.succ (fun v => v) 3 0 0 = some (42, 2)
    ∧ run_spinning (countdown_future 0 7) 1 0 0 = some (7, 0) := by
  constructor
  · have h := run_returns_after_n_pending_polls.1 Nat Nat Nat (countdown_future 2 42)
      Nat.succ (fun v => v) 0 0 2 42 (by decide) (by decide) 3 (by decide)
    rw [h]
    decide
  · have h := run_returns_after_n_pending_polls.2.2 Nat Nat Nat (countdown_future 0 7)
      0 0 0 7 (by decide) (by decide) 1 (by decide)
    rw [h]
    decide

/-- **C2**: `run_spinning future` is `run future spin_loop_hint`; `run future
wait` is `run_with_wake future wait (fun _ => _)` with the no-op wake closure;
all three entry points execute the single shared poll loop, differing only in
the waker (built from the supplied wake callback) and the wait operation. -/
theorem run_entry_points_equiv :
    (∀ (σ ω α : Type) (f : Future σ ω α) (fuel : Nat) (s : σ) (w : ω),
      run_spinning f fuel s w = run f (fun v => spin_loop_hint v) fuel s w)
    ∧ (∀ (σ ω α : Type) (f : Future σ ω α) (wait : ω → ω) (fuel : Nat) (s : σ) (w : ω),
      run f wait fuel s w = run_with_wake f wait (fun v => v) fuel s w)
    ∧ (∀ (σ ω α : Type) (f : Future σ ω α) (wait wake : ω → ω) (fuel : Nat)
        (s : σ) (w : ω),
      run_with_wake f wait wake fuel s w = poll_loop f wait (run_context wake) fuel s w) :=
  ⟨fun _ _ _ _ _ _ _ => rfl, fun _ _ _ _ _ _ _ _ => rfl,
    fun _ _ _ _ _ _ _ _ _ => rfl⟩

/-- **C3**: for every wake callback supplied to `run_with_wake`, each
invocation of the fabricated waker's wake operation (consuming or by-ref)
invokes exactly that callback, exactly once per wake call, with no argument:
invoking it on world `w` yields precisely `wake w` — one application of the
supplied zero-argument callback. -/
theorem wake_invokes_callback_once :
    ∀ (ω : Type) (wake : ω → ω) (w : ω),
      Waker.wake ((run_context wake).waker) w = some (wake w)
      ∧ Waker.wake_by_ref ((run_context wake).waker) w = some (wake w) :=
  fun _ _ _ => ⟨rfl, rfl⟩

/-- **C4**: a cloned waker is behaviorally indistinguishable from its source —
cloning never fails (it is a total operation whose result even coincides with
the source handle), wake on a clone invokes the same callback as wake on the
original, and after discarding the original (the drop entry releases nothing)
a surviving clone still invokes the fabricated callback correctly. -/
theorem clone_behaviorally_indistinguishable :
    ∀ (ω : Type) (g : ω → ω) (w : ω),
      (∀ wk : Waker ω, Waker.clone wk = wk)
      ∧ (∀ wk : Waker ω, Waker.wake (Waker.clone wk) w = Waker.wake wk w)
      ∧ (∀ wk : Waker ω, Waker.wake_by_ref (Waker.clone wk) w = Waker.wake_by_ref wk w)
      ∧ (Waker.drop ((run_context g).waker) = ()
          ∧ Waker.wake (Waker.clone ((run_context g).waker)) w = some (g w)) :=
  fun _ g w =>
    ⟨fun wk => waker_clone_self wk,
      fun wk => by rw [waker_clone_self],
      fun wk => by rw [waker_clone_self],
      rfl, rfl⟩

/-- **C5**: for the no-op waker installed by `run` and `run_spinning` (wake
callback `|| {}`), invoking wake any number of times — directly or through a
clone, zero or more times, at any point, in particular also after the future
has completed (the wake operation does not depend on the future at all) —
never panics, leaves the world unchanged, and therefore does not alter the
result of any subsequent poll loop started from that world. -/
theorem noop_waker_no_effect :
    ∀ (ω : Type) (n : Nat) (w : ω),
      iterate_wake ((run_context (fun v => v)).waker) n w = some w
      ∧ iterate_wake (Waker.clone ((run_context (fun v => v)).waker)) n w = some w
      ∧ (∀ (σ α : Type) (f : Future σ ω α) (wait : ω → ω) (fuel : Nat) (s : σ)
          (w' : ω),
          iterate_wake ((run_context (fun v => v)).waker) n w = some w' →
          run f wait fuel s w' = run f wait fuel s w) := by
  have key : ∀ (ω : Type) (n : Nat) (w : ω),
      iterate_wake ((run_context (fun v => v)).waker) n w = some w := by
    intro ω n
    induction n with
    | zero => intro w; rfl
    | succ n ih =>
      intro w
      have hw : Waker.wake ((run_context (fun v => v)).waker) w = some w := rfl
      calc iterate_wake ((run_context (fun v => v)).waker) (n + 1) w
          = (Waker.wake ((run_context (fun v => v)).waker) w).bind
              (iterate_wake ((run_context (fun v => v)).waker) n) := rfl
        _ = iterate_wake ((run_context (fun v => v)).waker) n w := by rw [hw]; rfl
        _ = some w := ih w
  intro ω n w
  refine ⟨key ω n w, ?_, ?_⟩
  · rw [waker_clone_self]
    exact key ω n w
  · intro σ α f wait fuel s w' hw'
    have : w' = w := by
      have := key ω n w
      rw [this] at hw'
      exact (Option.some.injEq ..).mp hw'.symm
  -- the worlds coincide, so the subsequent runs coincide
    rw [this]

/-- Witness for C5: three wake invocations on the no-op waker over a counter
world leave the counter at `0`, and the subsequent two-poll run of the
countdown future from the woken world agrees with the run from the original
world. -/
theorem noop_waker_no_effect_witness :
    iterate_wake ((run_context (fun v : Nat => v)).waker) 3 0 = some 0
    ∧ run (countdown_future 1 5) Nat.succ 2 0 0 = run (countdown_future 1 5) Nat.succ 2 0 0 := by
  refine ⟨(noop_waker_no_effect Nat 3 0).1, ?_⟩
  exact (noop_waker_no_effect Nat 3 0).2.2 Nat Nat (countdown_future 1 5) Nat.succ 2 0 0
    (by decide)

/-- **C6**: a run call never returns without the future having reported
completion.  If every poll along the trajectory is `pending`, the loop does
not exit within any number of iterations (there is no iteration bound, no
timeout, no external cancellation); and whenever the loop does return a value,
some poll reported `ready` with exactly that value — the return of the
future's result is the loop's only exit. -/
theorem run_only_exits_on_ready :
    (∀ (σ ω α : Type) (f : Future σ ω α) (wait wake : ω → ω) (s : σ) (w : ω),
      (∀ k, (poll_at f (run_context wake) wait s w k).1 = Poll.pending) →
      ∀ fuel, run_with_wake f wait wake fuel s w = none)
    ∧ (∀ (σ ω α : Type) (f : Future σ ω α) (wait wake : ω → ω) (s : σ) (w : ω)
        (fuel : Nat) (a : α) (wfin : ω),
      run_with_wake f wait wake fuel s w = some (a, wfin) →
      ∃ n, n < fuel
        ∧ (∀ k, k < n → (poll_at f (run_context wake) wait s w k).1 = Poll.pending)
        ∧ (poll_at f (run_context wake) wait s w n).1 = Poll.ready a
        ∧ (poll_at f (run_context wake) wait s w n).2.2 = wfin) :=
  ⟨fun _ _ _ f wait wake s w hpend fuel =>
      poll_loop_none_of_pending f (run_context wake) wait fuel s w
        (fun k _ => hpend k),
    fun _ _ _ f wait wake s w fuel a wfin h =>
      poll_loop_some_ready f (run_context wake) wait fuel s w a wfin h⟩

/-- Witness for C6: the always-pending future makes the loop return nothing
even after five polls, and from the one-step countdown future's successful run
at fuel `2` one recovers the poll index that reported `ready 5`. -/
theorem run_only_exits_on_ready_witness :
    run_with_wake pend_future Nat.succ (fun v => v) 5 () 0 = none
    ∧ ∃ n, n < 2
        ∧ (∀ k, k < n →
            (poll_at (countdown_future 1 5) (run_context (fun v => v)) Nat.succ 0 0 k).1
              = Poll.pending)
        ∧ (poll_at (countdown_future 1 5) (run_context (fun v => v)) Nat.succ 0 0 n).1
            = Poll.ready 5
        ∧ (poll_at (countdown_future 1 5) (run_context (fun v => v)) Nat.succ 0 0 n).2.2
            = 1 :=
  ⟨run_only_exits_on_ready.1 Unit Nat Nat pend_future Nat.succ (fun v => v) () 0
      (fun _ => rfl) 5,
    run_only_exits_on_ready.2 Nat Nat Nat (countdown_future 1 5) Nat.succ (fun v => v)
      0 0 2 5 1 (by decide)⟩

/-- **C7**: the driver itself never fails and performs no recovery.  Under the
panic-aware rendering of the same loop: (i) when neither `poll` nor `wait`
panics the driver returns exactly the pure loop's result wrapped in `ok` — it
raises no failure of its own; (ii) a panic raised by a poll attempt unwinds
out of the loop unmodified, with no retry and no transformation; (iii) a panic
raised by the wait operation likewise unwinds out unmodified; (iv) a wake
callback that panics has its panic surface unmodified out of the waker's wake
operation, in whatever context invoked it. -/
theorem driver_propagates_failures :
    (∀ (σ ω α ε : Type) (f : Future σ ω α) (wait wake : ω → ω) (fuel : Nat)
        (s : σ) (w : ω),
      run_with_wake_exc (ε := ε) (fun s' cx w' => Except.ok (f.poll s' cx w'))
          (fun v => Except.ok (wait v)) wake fuel s w
        = Except.ok (run_with_wake f wait wake fuel s w))
    ∧ (∀ (σ ω α ε : Type) (p : σ → Context ω → ω → Except ε (Poll α × σ × ω))
        (wait : ω → Except ε ω) (wake : ω → ω) (s : σ) (w : ω) (e : ε),
      p s (run_context wake) w = Except.error e →
      ∀ fuel, 0 < fuel → run_with_wake_exc p wait wake fuel s w = Except.error e)
    ∧ (∀ (σ ω α ε : Type) (p : σ → Context ω → ω → Except ε (Poll α × σ × ω))
        (wait : ω → Except ε ω) (wake : ω → ω) (s s' : σ) (w w' : ω) (e : ε),
      p s (run_context wake) w = Except.ok (Poll.pending, s', w') →
      wait w' = Except.error e →
      ∀ fuel, 0 < fuel → run_with_wake_exc p wait wake fuel s w = Except.error e)
    ∧ (∀ (ρ ε : Type) (g : ρ → Except ε ρ) (x : ρ) (e : ε),
      g x = Except.error e →
      Waker.wake ((run_context (fun v : Except ε ρ => v.bind g)).waker) (Except.ok x)
        = some (Except.error e)) := by
  refine ⟨?_, ?_, ?_, ?_⟩
  · intro σ ω α ε f wait wake fuel
    induction fuel with
    | zero => intro s w; rfl
    | succ fuel ih =>
      intro s w
      rcases hr : f.poll s (run_context wake) w with ⟨pr, s', w'⟩
      cases pr with
      | ready res =>
        simp [run_with_wake_exc, poll_loop_exc, run_with_wake, poll_loop, hr]
      | pending =>
        have := ih s' (wait w')
        simpa [run_with_wake_exc, poll_loop_exc, run_with_wake, poll_loop, hr] using this
  · intro σ ω α ε p wait wake s w e he fuel hfuel
    obtain ⟨fuel, rfl⟩ : ∃ m, fuel = m + 1 := ⟨fuel - 1, by omega⟩
    simp [run_with_wake_exc, poll_loop_exc, he]
  · intro σ ω α ε p wait wake s s' w w' e hp hw fuel hfuel
    obtain ⟨fuel, rfl⟩ : ∃ m, fuel = m + 1 := ⟨fuel - 1, by omega⟩
    simp [run_with_wake_exc, poll_loop_exc, hp, hw]
  · intro ρ ε g x e hg
    calc Waker.wake ((run_context (fun v : Except ε ρ => v.bind g)).waker) (Except.ok x)
        = some ((Except.ok x).bind g) := rfl
      _ = some (g x) := rfl
      _ = some (Except.error e) := by rw [hg]

/-- Witness for C7: a poll that panics with payload `99` makes the driver
surface exactly `error 99` on its first iteration; a pending poll followed by
a panicking wait surfaces exactly `error 7`; and a wake callback panicking
with payload `3` surfaces `error 3` out of the waker's wake operation. -/
theorem driver_propagates_failures_witness :
    run_with_wake_exc (fun (_ : Unit) (_ : Context Nat) (_ : Nat) =>
        (Except.error 99 : Except Nat (Poll Nat × Unit × Nat)))
        (fun v => Except.ok v) (fun v => v) 1 () 0 = Except.error 99
    ∧ run_with_wake_exc (fun (_ : Unit) (_ : Context Nat) (w : Nat) =>
        (Except.ok (Poll.pending, (), w) : Except Nat (Poll Nat × Unit × Nat)))
        (fun _ => Except.error 7) (fun v => v) 1 () 0 = Except.error 7
    ∧ Waker.wake
        ((run_context (fun v : Except Nat Nat => v.bind (fun _ => Except.error 3))).waker)
        (Except.ok 0) = some (Except.error 3) :=
  ⟨driver_propagates_failures.2.1 Unit Nat Nat Nat
      (fun _ _ _ => Except.error 99) (fun v => Except.ok v) (fun v => v) () 0 99 rfl 1
      (by decide),
    driver_propagates_failures.2.2.1 Unit Nat Nat Nat
      (fun _ _ w => Except.ok (Poll.pending, (), w)) (fun _ => Except.error 7)
      (fun v => v) () () 0 0 7 rfl rfl 1 (by decide),
    driver_propagates_failures.2.2.2 Nat Nat (fun _ => Except.error 3) 0 3 rfl⟩

/-- **C8**: the waker fabricator provides three notification strategies,
selected by which entry point is used: `run_spinning` and `run` install the
waker built from the no-op callback, `run_with_wake` installs the waker built
from the caller's callback; the no-op strategy and a callback strategy are
observably distinct; and the run-with-wake entry point has two sub-forms of
callback, both instances of the same generic parameter — a state-free
callback, and a callback capturing state of an arbitrary type `ε` (modelled
as a function of the captured state, partially applied to it). -/
theorem three_waker_strategies :
    (∀ (σ ω α : Type) (f : Future σ ω α) (fuel : Nat) (s : σ) (w : ω),
      run_spinning f fuel s w
        = poll_loop f (fun v => spin_loop_hint v) (run_context (fun v => v)) fuel s w)
    ∧ (∀ (σ ω α : Type) (f : Future σ ω α) (wait : ω → ω) (fuel : Nat) (s : σ) (w : ω),
      run f wait fuel s w = poll_loop f wait (run_context (fun v => v)) fuel s w)
    ∧ (∀ (σ ω α : Type) (f : Future σ ω α) (wait wake : ω → ω) (fuel : Nat)
        (s : σ) (w : ω),
      run_with_wake f wait wake fuel s w = poll_loop f wait (run_context wake) fuel s w)
    ∧ (∃ g : Nat → Nat, ∃ w : Nat,
      Waker.wake ((run_context g).waker) w
        ≠ Waker.wake ((run_context (fun v : Nat => v)).waker) w)
    ∧ (∀ (σ ω α ε : Type) (f : Future σ ω α) (wait : ω → ω) (captured : ε)
        (g : ε → ω → ω) (fuel : Nat) (s : σ) (w : ω),
      run_with_wake f wait (g captured) fuel s w
        = poll_loop f wait (run_context (g captured)) fuel s w) :=
  ⟨fun _ _ _ _ _ _ _ => rfl,
    fun _ _ _ _ _ _ _ _ => rfl,
    fun _ _ _ _ _ _ _ _ _ => rfl,
    ⟨Nat.succ, 0, by decide⟩,
    fun _ _ _ _ _ _ _ _ _ _ _ => rfl⟩

/-- **C9**: in every call to `run_with_wake`, the data pointer stored in the
fabricated waker is the (non-null) address of the live `wake` argument —
`some wake` in the embedding — and it stays so across cloning to any depth;
consequently the `unwrap` in the vtable's wake entries always succeeds:
each wake dispatch returns `some _`, never the `none` of the null-pointer
failure branch. -/
theorem waker_data_pointer_nonnull :
    ∀ (ω : Type) (wake : ω → ω),
      ((run_context wake).waker.raw.data = some wake)
      ∧ (∀ w, vtable_wake ((run_context wake).waker.raw.data) w = some (wake w))
      ∧ (∀ w, vtable_wake_by_ref ((run_context wake).waker.raw.data) w = some (wake w))
      ∧ (∀ n w,
          vtable_wake ((Waker.clone)^[n] ((run_context wake).waker)).raw.data w
            = some (wake w)
          ∧ vtable_wake_by_ref ((Waker.clone)^[n] ((run_context wake).waker)).raw.data w
            = some (wake w)) := by
  intro ω wake
  have hfix : ∀ n, (Waker.clone)^[n] ((run_context wake).waker) = (run_context wake).waker :=
    fun n => Function.iterate_fixed (waker_clone_self _) n
  exact ⟨rfl, fun _ => rfl, fun _ => rfl, fun n w => by rw [hfix]; exact ⟨rfl, rfl⟩⟩

/-- **C10**: cloning is deterministic and idempotent at the representation
level: the clone vtable entry rebuilds a raw waker from the very same data
pointer with the same (single static) vtable, so a clone — and a clone of a
clone, to any depth — is structurally identical to the original handle; the
drop entry releases nothing, and the consuming wake releases nothing either:
after it, every clone still dispatches identically to the original. -/
theorem clone_is_representation_identity :
    ∀ (ω : Type) (p : Option (ω → ω)) (wk : Waker ω) (n : Nat) (w : ω),
      (vtable_clone p).data = p
      ∧ (vtable_clone p).vtable = (create_raw_waker p).vtable
      ∧ vtable_clone p = create_raw_waker p
      ∧ (Waker.clone)^[n] wk = wk
      ∧ Waker.drop wk = ()
      ∧ Waker.wake ((Waker.clone)^[n] wk) w = Waker.wake wk w :=
  fun _ p wk n w =>
    ⟨rfl, rfl, rfl,
      Function.iterate_fixed (waker_clone_self wk) n,
      rfl,
      by rw [Function.iterate_fixed (waker_clone_self wk) n]⟩

end DirectExecutor
